import Mathlib

/-!
Verification of the lwjournal logging client (Go) against its specification.

Shallow embedding conventions:
* Go byte slices and Go strings are modelled as `List Nat`, each element a byte
  value (`< 256` where it matters).  `bytes.Buffer` is modelled by explicit
  state passing: a buffer is the `List Nat` of bytes written so far, and each
  `Write*` call appends.
* `uint64` arithmetic is `Nat` with explicit `% 2 ^ 64`.
* Fallible operations (`net.Dial` in `New`) are `Except`.
-/

/-- Byte list of an ASCII Lean string literal (used only to build concrete
byte sequences such as field names; for ASCII, code points are bytes). -/
def strBytes (s : String) : List Nat :=
  s.data.map Char.toNat

/-- Go `binary.LittleEndian.PutUint64`: the 8 bytes of `v` (as a `uint64`,
i.e. modulo `2 ^ 64`), least significant first; byte `i` is `byte(v >> 8*i)`. -/
def putUint64LE (v : Nat) : List Nat :=
  [v % 256, v / 256 % 256, v / 65536 % 256, v / 16777216 % 256,
   v / 4294967296 % 256, v / 1099511627776 % 256,
   v / 281474976710656 % 256, v / 72057594037927936 % 256]

/-- Go `writeField(b, name, message)`: appends to buffer `b` the bytes of `name`,
a newline, the 8-byte little-endian length of `message` (`uint64(len(message))`),
the raw `message` bytes, and a trailing newline. -/
def writeField (b name message : List Nat) : List Nat :=
  let sz := putUint64LE (message.length % 2 ^ 64)
  b ++ name ++ [10] ++ sz ++ message ++ [10]

/-- Go `buildField(name, message)`: a fresh buffer holding one encoded field. -/
def buildField (name message : List Nat) : List Nat :=
  writeField [] name message

/-- Little-endian decode of a byte list (value of `bs` read least significant
byte first).  Used to state that the 8 length bytes really encode the length. -/
def leUint64 (bs : List Nat) : Nat :=
  bs.foldr (fun b acc => b + 256 * acc) 0

/-- Modelled from the spec: the parse of one encoded field, reading the name
up to the first newline byte, then the 8-byte little-endian value length, then
that many value bytes, then the trailing newline; yields the name, the value
and the unconsumed remainder.  (The repository ships no decoder: parsing is
done by the journal daemon.)  First step: the name, up to the first newline. -/
def parseName : List Nat → Option (List Nat × List Nat)
  | [] => none
  | b :: rest =>
    if b = 10 then some ([], rest)
    else
      match parseName rest with
      | none => none
      | some (n, r) => some (b :: n, r)

/-- Modelled from the spec: after the name, the next 8 bytes are the
little-endian value length, then that many value bytes, then a newline. -/
def parseValue (rest : List Nat) : Option (List Nat × List Nat) :=
  if rest.length < 8 then none
  else
    match (rest.drop 8).drop (leUint64 (rest.take 8)) with
    | [] => none
    | b :: rest3 =>
      if b = 10 then some ((rest.drop 8).take (leUint64 (rest.take 8)), rest3)
      else none

/-- Modelled from the spec: parse one field (see `parseName`, `parseValue`). -/
def parseField (bytes : List Nat) : Option (List Nat × List Nat × List Nat) :=
  match parseName bytes with
  | none => none
  | some (name, rest) =>
    match parseValue rest with
    | none => none
    | some (value, rest3) => some (name, value, rest3)

/-- Modelled from the spec: parse a whole record as a list of
(name, value) fields; `fuel` bounds the recursion (a field consumes at least
ten bytes, so `bytes.length` is always enough fuel). -/
def parseFields : Nat → List Nat → Option (List (List Nat × List Nat))
  | _, [] => some []
  | 0, _ :: _ => none
  | fuel + 1, b :: rest =>
    match parseField (b :: rest) with
    | none => none
    | some (n, v, remainder) =>
      match parseFields fuel remainder with
      | none => none
      | some fs => some ((n, v) :: fs)

/-- Modelled from the spec: decode a full record into its field list. -/
def parseRecord (bytes : List Nat) : Option (List (List Nat × List Nat)) :=
  parseFields bytes.length bytes

/-- A `runtime.Frame`: program counter, file, line and function name.  The
program counter is the cache key (`frame.PC`); `File`/`Function` are byte
lists, `Line` is the Go `int`. -/
structure Frame where
  PC : Nat
  File : List Nat
  Line : Int
  Function : List Nat
deriving DecidableEq

/-- The zero `runtime.Frame`, which `runtime.CallersFrames(...).Next` yields
when no valid program counters remain. -/
def zeroFrame : Frame :=
  { PC := 0, File := [], Line := 0, Function := [] }

/-- The frames captured by `pc := make([]uintptr, 4); runtime.Callers(3, pc)`:
starting 3 frames above `runtime.Callers` itself, at most 4 of them.  `stack`
is the full frame list, index 0 identifying `runtime.Callers`. -/
def capturedFrames (stack : List Frame) : List Frame :=
  (stack.drop 3).take 4

/-- The loop of `getCodePos`: `frame, more := frames.Next()` followed by
`for more && IsLoggingFunction(frame) { frame, more = frames.Next() }`.
`Next` on the last frame reports `more = false`, so the final frame is
returned without consulting the predicate; on an empty iterator the zero
frame is returned. -/
def walkFrames (isLog : Frame → Bool) : List Frame → Frame
  | [] => zeroFrame
  | [f] => f
  | f :: g :: rest => if isLog f then walkFrames isLog (g :: rest) else f

/-- Go `strconv.AppendInt(nil, i, 10)`: the ASCII decimal representation. -/
def intDecimal (i : Int) : List Nat :=
  strBytes (toString i)

/-- The `CODE_FILE`, `CODE_LINE`, `CODE_FUNC` fields built by `getCodePos`
on a cache miss, in that order in one buffer. -/
def buildCodePos (f : Frame) : List Nat :=
  writeField
    (writeField (writeField [] (strBytes "CODE_FILE") f.File)
      (strBytes "CODE_LINE") (intDecimal f.Line))
    (strBytes "CODE_FUNC") f.Function

/-- Go map lookup `j.codePos[frame.PC]`, with the map as an association list
(most recent insertion first). -/
def lookupPos : List (Nat × List Nat) → Nat → Option (List Nat)
  | [], _ => none
  | (k, v) :: rest, pc => if k = pc then some v else lookupPos rest pc

/-- The `Journal` struct.  `sock` is an opaque handle for the connection;
`extraVars` is the `bytes.Buffer` contents; `codePos` the cache map;
`writes` the contents of the `chan []byte` delivery queue. `stackWalks` is
ghost instrumentation counting executions of the stack walk
(`runtime.Callers`), the spec's injected counter on the stack-walk
operation; it corresponds to no stored Go state. -/
structure Journal where
  Debug : Bool
  sock : Nat
  priDebug : List Nat
  priInfo : List Nat
  priError : List Nat
  extraVars : List Nat
  codePos : List (Nat × List Nat)
  stackWalks : Nat
  writes : List (List Nat)
deriving DecidableEq

/-- The struct literal in `New` (after a successful `net.Dial`): pre-encoded
priority fields, empty extra-variables buffer, empty cache, empty queue;
`Debug` is the Go zero value `false`. -/
def mkJournal (sock : Nat) : Journal :=
  { Debug := false
    sock := sock
    priDebug := buildField (strBytes "PRIORITY") (strBytes "7")
    priInfo := buildField (strBytes "PRIORITY") (strBytes "6")
    priError := buildField (strBytes "PRIORITY") (strBytes "3")
    extraVars := []
    codePos := []
    stackWalks := 0
    writes := [] }

/-- Go `New()`: dials the daemon socket (`net.Dial("unixgram",
"/run/systemd/journal/socket")`, modelled as the `dial` argument since the
network is external); on error returns `(nil, err)`, otherwise the fresh
journal (and starts the writer goroutine). -/
def New (dial : Except String Nat) : Except String Journal :=
  match dial with
  | Except.error e => Except.error e
  | Except.ok sock => Except.ok (mkJournal sock)

/-- Go `getCodePos`: walks the captured stack (every invocation), then consults
the cache keyed by the chosen frame's PC; on a miss builds the three location
fields and inserts them.  `isLog` models the external
`lwlog.IsLoggingFunction` predicate; the updated journal is returned along
with the location bytes. -/
def getCodePos (isLog : Frame → Bool) (j : Journal) (stack : List Frame) :
    List Nat × Journal :=
  let frame := walkFrames isLog (capturedFrames stack)
  let j1 : Journal := { j with stackWalks := j.stackWalks + 1 }
  match lookupPos j1.codePos frame.PC with
  | some cp => (cp, j1)
  | none => (buildCodePos frame, { j1 with codePos := (frame.PC, buildCodePos frame) :: j1.codePos })

/-- Go `AddVariable(name, value)`: appends one encoded field to the
extra-variables buffer. -/
def AddVariable (j : Journal) (name value : List Nat) : Journal :=
  { j with extraVars := writeField j.extraVars name value }

/-- Go `entry(preamble, fmt, args...)`: resolves the caller location, formats
the message (`fmt.Fprintf` is external, so `msg` is the formatted message
bytes), writes preamble, location, extra variables and the `MESSAGE` field
into one buffer and sends it on the delivery queue. -/
def entry (isLog : Frame → Bool) (j : Journal) (preamble : List Nat)
    (stack : List Frame) (msg : List Nat) : Journal :=
  let r := getCodePos isLog j stack
  let record := writeField (preamble ++ r.1 ++ r.2.extraVars) (strBytes "MESSAGE") msg
  { r.2 with writes := r.2.writes ++ [record] }

/-- Go `Debugf`: returns immediately unless `j.Debug`; otherwise one entry at
the debug priority. -/
def Debugf (isLog : Frame → Bool) (j : Journal) (stack : List Frame)
    (msg : List Nat) : Journal :=
  if j.Debug then entry isLog j j.priDebug stack msg else j

/-- Go `Infof`: one entry at the info priority. -/
def Infof (isLog : Frame → Bool) (j : Journal) (stack : List Frame)
    (msg : List Nat) : Journal :=
  entry isLog j j.priInfo stack msg

/-- Go `Errorf`: one entry at the error priority. -/
def Errorf (isLog : Frame → Bool) (j : Journal) (stack : List Frame)
    (msg : List Nat) : Journal :=
  entry isLog j j.priError stack msg

/-- Capacity of the delivery queue: `make(chan []byte, 100)`. -/
def chanCapacity : Nat := 100

/-- Channel send (`j.writes <- record`): succeeds (appends at the back) when
a slot is free; `none` means the sender blocks until the consumer frees a
slot. -/
def chanSend (q : List (List Nat)) (m : List Nat) : Option (List (List Nat)) :=
  if q.length < chanCapacity then some (q ++ [m]) else none

/-- Channel receive (`msg := <-j.writes`, the writer's `range`): takes the
front record; `none` means the queue is empty and the consumer waits. -/
def chanRecv (q : List (List Nat)) : Option (List Nat × List (List Nat)) :=
  match q with
  | [] => none
  | m :: rest => some (m, rest)

/-- The writer goroutine `for msg := range j.writes { j.sock.Write(msg) }`:
drains the queue front to back, appending each record to the sequence of
socket writes (`sent`). -/
def writerDrain (sent : List (List Nat)) : List (List Nat) → List (List Nat)
  | [] => sent
  | m :: rest => writerDrain (sent ++ [m]) rest

-- Decode/encode agreement for the 8-byte length prefix.
theorem leUint64_putUint64LE (v : Nat) (h : v < 2 ^ 64) :
    leUint64 (putUint64LE v) = v := by
  simp only [leUint64, putUint64LE, List.foldr]
  omega

theorem parseName_append (name rest : List Nat) (h : ∀ b ∈ name, b ≠ 10) :
    parseName (name ++ 10 :: rest) = some (name, rest) := by
  induction name with
  | nil => simp [parseName]
  | cons b tl ih =>
    have hb : b ≠ 10 := h b (List.mem_cons_self b tl)
    have htl : ∀ x ∈ tl, x ≠ 10 := fun x hx => h x (List.mem_cons_of_mem b hx)
    simp [parseName, hb, ih htl]

/-- One encoded field, followed by arbitrary trailing bytes, parses back to
exactly its name and value (provided the name has no newline byte and the
value is of `uint64`-representable length). -/
theorem parseValue_encoded (value tail : List Nat) (hlen : value.length < 2 ^ 64) :
    parseValue (putUint64LE (value.length % 2 ^ 64) ++ (value ++ 10 :: tail)) =
      some (value, tail) := by
  have hmod : value.length % 2 ^ 64 = value.length := Nat.mod_eq_of_lt hlen
  have hsz : (putUint64LE (value.length % 2 ^ 64)).length = 8 := by
    simp [putUint64LE]
  have htake : (putUint64LE (value.length % 2 ^ 64) ++ (value ++ 10 :: tail)).take 8
      = putUint64LE (value.length % 2 ^ 64) := by
    rw [← hsz, List.take_left]
  have hdrop : (putUint64LE (value.length % 2 ^ 64) ++ (value ++ 10 :: tail)).drop 8
      = value ++ 10 :: tail := by
    rw [← hsz, List.drop_left]
  have hlt : ¬ (putUint64LE (value.length % 2 ^ 64) ++ (value ++ 10 :: tail)).length < 8 := by
    rw [List.length_append, hsz]; omega
  have hdec : leUint64 ((putUint64LE (value.length % 2 ^ 64) ++ (value ++ 10 :: tail)).take 8)
      = value.length := by
    rw [htake, hmod]; exact leUint64_putUint64LE value.length hlen
  rw [parseValue, if_neg hlt, hdec, hdrop, List.drop_left, List.take_left]
  simp

theorem parseField_buildField (name value tail : List Nat)
    (hname : ∀ b ∈ name, b ≠ 10) (hlen : value.length < 2 ^ 64) :
    parseField (buildField name value ++ tail) = some (name, value, tail) := by
  have harr : buildField name value ++ tail
      = name ++ 10 :: (putUint64LE (value.length % 2 ^ 64) ++ (value ++ 10 :: tail)) := by
    simp [buildField, writeField]
  rw [harr, parseField, parseName_append name _ hname]
  simp only [parseValue_encoded value tail hlen]

/-- C1: `writeField`/`buildField` produce exactly the name bytes, one newline
byte, 8 bytes that little-endian-decode to the value's length, the raw value
bytes (no escaping), and a trailing newline, appended to the buffer. -/
theorem C1_field_encoder_layout (b name value : List Nat)
    (h : value.length < 2 ^ 64) :
    ∃ sz : List Nat,
      writeField b name value = b ++ name ++ [10] ++ sz ++ value ++ [10] ∧
      buildField name value = name ++ [10] ++ sz ++ value ++ [10] ∧
      sz.length = 8 ∧ leUint64 sz = value.length := by
  refine ⟨putUint64LE (value.length % 2 ^ 64), rfl, by simp [buildField, writeField], ?_, ?_⟩
  · simp [putUint64LE]
  · rw [Nat.mod_eq_of_lt h]; exact leUint64_putUint64LE value.length h

/-- Witness for C1 at a concrete buffer, name and value. -/
theorem C1_field_encoder_layout_witness :
    ∃ sz : List Nat,
      writeField [1] (strBytes "A") [0, 255] = [1] ++ strBytes "A" ++ [10] ++ sz ++ [0, 255] ++ [10] ∧
      buildField (strBytes "A") [0, 255] = strBytes "A" ++ [10] ++ sz ++ [0, 255] ++ [10] ∧
      sz.length = 8 ∧ leUint64 sz = [0, 255].length :=
  C1_field_encoder_layout [1] (strBytes "A") [0, 255] (by decide)

theorem writeField_append (b name message : List Nat) :
    writeField b name message = b ++ buildField name message := by
  simp [writeField, buildField]

theorem getCodePos_state (isLog : Frame → Bool) (j : Journal) (stack : List Frame) :
    (getCodePos isLog j stack).2.extraVars = j.extraVars ∧
    (getCodePos isLog j stack).2.writes = j.writes ∧
    (getCodePos isLog j stack).2.Debug = j.Debug ∧
    (getCodePos isLog j stack).2.priDebug = j.priDebug ∧
    (getCodePos isLog j stack).2.priInfo = j.priInfo ∧
    (getCodePos isLog j stack).2.priError = j.priError ∧
    (getCodePos isLog j stack).2.stackWalks = j.stackWalks + 1 := by
  unfold getCodePos
  cases h : lookupPos j.codePos (walkFrames isLog (capturedFrames stack)).PC <;>
    simp [h]

theorem entry_writes (isLog : Frame → Bool) (j : Journal) (preamble : List Nat)
    (stack : List Frame) (msg : List Nat) :
    (entry isLog j preamble stack msg).writes =
      j.writes ++ [preamble ++ (getCodePos isLog j stack).1 ++ j.extraVars ++
        buildField (strBytes "MESSAGE") msg] := by
  have hst := getCodePos_state isLog j stack
  simp only [entry]
  simp [writeField_append, hst.1, hst.2.1, List.append_assoc]

/-- Frames used for concrete call-site evaluations: three frames skipped by
`runtime.Callers(3, ...)`, then the application call site. -/
def demoFrame : Frame :=
  { PC := 4100, File := strBytes "/src/demo.go", Line := 31,
    Function := strBytes "main.run" }

/-- A concrete call stack whose captured portion is just `demoFrame`. -/
def demoStack : List Frame :=
  [{ PC := 1, File := [], Line := 0, Function := [] },
   { PC := 2, File := [], Line := 0, Function := [] },
   { PC := 3, File := [], Line := 0, Function := [] },
   demoFrame]

/-- C2: encoding a field whose name has no newline byte and parsing it back
(name up to the first newline, 8-byte little-endian length, that many value
bytes) recovers the original value exactly, embedded newlines and non-UTF8
bytes included. -/
theorem C2_encode_parse_roundtrip (name value : List Nat)
    (hname : ∀ b ∈ name, b ≠ 10) (hlen : value.length < 2 ^ 64) :
    parseField (buildField name value) = some (name, value, []) := by
  have := parseField_buildField name value [] hname hlen
  simpa using this

/-- Witness for C2: a value with an embedded newline and a non-UTF8 byte. -/
theorem C2_encode_parse_roundtrip_witness :
    parseField (buildField (strBytes "MESSAGE") [104, 10, 255, 0]) =
      some (strBytes "MESSAGE", [104, 10, 255, 0], []) :=
  C2_encode_parse_roundtrip (strBytes "MESSAGE") [104, 10, 255, 0]
    (by decide) (by decide)

set_option maxRecDepth 100000 in
/-- C3: a record assembled by `entry` is, in order, the priority preamble,
the caller-location bytes, the extra-variables buffer, and exactly one
MESSAGE field; concretely, after `AddVariable("FOO","bar")` an `Infof`
record decodes to PRIORITY=6, the three caller-location fields, one FOO=bar
field (not two) and one MESSAGE field with the formatted message. -/
theorem C3_record_field_order (isLog : Frame → Bool) (j : Journal)
    (preamble : List Nat) (stack : List Frame) (msg : List Nat) :
    ((entry isLog j preamble stack msg).writes =
      j.writes ++ [preamble ++ (getCodePos isLog j stack).1 ++ j.extraVars ++
        buildField (strBytes "MESSAGE") msg]) ∧
    (parseRecord ((Infof (fun _ => false)
        (AddVariable (mkJournal 0) (strBytes "FOO") (strBytes "bar"))
        demoStack (strBytes "x=1")).writes.getLast?.getD []) =
      some [(strBytes "PRIORITY", strBytes "6"),
            (strBytes "CODE_FILE", strBytes "/src/demo.go"),
            (strBytes "CODE_LINE", strBytes "31"),
            (strBytes "CODE_FUNC", strBytes "main.run"),
            (strBytes "FOO", strBytes "bar"),
            (strBytes "MESSAGE", strBytes "x=1")]) := by
  constructor
  · exact entry_writes isLog j preamble stack msg
  · decide

/-- C4 (amended): the resolver returns identical location bytes on every
invocation at a fixed call site, the cached bytes equal a fresh computation
(`buildCodePos` of the walked frame), and the second invocation takes the
bytes from the cache without re-encoding (cache unchanged); the stack walk
itself, however, runs again on every invocation (counter increments twice). -/
theorem C4_cache_returns_identical_bytes (isLog : Frame → Bool) (j : Journal)
    (stack : List Frame)
    (h : lookupPos j.codePos (walkFrames isLog (capturedFrames stack)).PC = none) :
    (getCodePos isLog j stack).1 =
      buildCodePos (walkFrames isLog (capturedFrames stack)) ∧
    (getCodePos isLog (getCodePos isLog j stack).2 stack).1 =
      (getCodePos isLog j stack).1 ∧
    (getCodePos isLog (getCodePos isLog j stack).2 stack).2.codePos =
      (getCodePos isLog j stack).2.codePos ∧
    (getCodePos isLog (getCodePos isLog j stack).2 stack).2.stackWalks =
      j.stackWalks + 2 := by
  unfold getCodePos
  simp [h, lookupPos]

/-- C4 counterexample: at a fresh client and a fixed call site, the second
resolver invocation performs another stack walk (the walk counter changes),
refuting "returns the cached bytes without re-walking the stack". -/
theorem C4_second_call_rewalks :
    (getCodePos (fun _ => false)
        (getCodePos (fun _ => false) (mkJournal 0) demoStack).2 demoStack).2.stackWalks ≠
      (getCodePos (fun _ => false) (mkJournal 0) demoStack).2.stackWalks := by
  decide

/-- Witness for C4 (amended) at a fresh client and the demo call site. -/
theorem C4_cache_returns_identical_bytes_witness :
    (getCodePos (fun _ => false) (mkJournal 0) demoStack).1 =
      buildCodePos (walkFrames (fun _ => false) (capturedFrames demoStack)) ∧
    (getCodePos (fun _ => false)
        (getCodePos (fun _ => false) (mkJournal 0) demoStack).2 demoStack).1 =
      (getCodePos (fun _ => false) (mkJournal 0) demoStack).1 ∧
    (getCodePos (fun _ => false)
        (getCodePos (fun _ => false) (mkJournal 0) demoStack).2 demoStack).2.codePos =
      (getCodePos (fun _ => false) (mkJournal 0) demoStack).2.codePos ∧
    (getCodePos (fun _ => false)
        (getCodePos (fun _ => false) (mkJournal 0) demoStack).2 demoStack).2.stackWalks =
      (mkJournal 0).stackWalks + 2 :=
  C4_cache_returns_identical_bytes (fun _ => false) (mkJournal 0) demoStack (by decide)

/-- C5: with the debug flag unset, `Debugf` is a no-op leaving the whole
client state unchanged (in particular the stack-walk counter, so no
stack-walk work happens); with the flag set, the same call enqueues exactly
one record whose leading field decodes to PRIORITY=7. -/
theorem C5_debug_gating (isLog : Frame → Bool) (j : Journal)
    (stack : List Frame) (msg : List Nat) :
    (j.Debug = false → Debugf isLog j stack msg = j) ∧
    (j.Debug = true →
      j.priDebug = buildField (strBytes "PRIORITY") (strBytes "7") →
      ∃ rest,
        (Debugf isLog j stack msg).writes =
          j.writes ++ [buildField (strBytes "PRIORITY") (strBytes "7") ++ rest] ∧
        parseField (buildField (strBytes "PRIORITY") (strBytes "7") ++ rest) =
          some (strBytes "PRIORITY", strBytes "7", rest)) := by
  constructor
  · intro h
    simp [Debugf, h]
  · intro h hpri
    refine ⟨(getCodePos isLog j stack).1 ++ j.extraVars ++
      buildField (strBytes "MESSAGE") msg, ?_, ?_⟩
    · rw [Debugf, if_pos h, entry_writes, hpri]
      simp [List.append_assoc]
    · exact parseField_buildField _ _ _ (by decide) (by decide)

/-- Witness for C5 at a concrete client (debug off and debug on). -/
theorem C5_debug_gating_witness :
    (Debugf (fun _ => false) (mkJournal 0) demoStack (strBytes "x=1") = mkJournal 0) ∧
    ∃ rest,
      (Debugf (fun _ => false)
          { mkJournal 0 with Debug := true } demoStack (strBytes "x=1")).writes =
        (mkJournal 0).writes ++
          [buildField (strBytes "PRIORITY") (strBytes "7") ++ rest] ∧
      parseField (buildField (strBytes "PRIORITY") (strBytes "7") ++ rest) =
        some (strBytes "PRIORITY", strBytes "7", rest) :=
  ⟨(C5_debug_gating (fun _ => false) (mkJournal 0) demoStack (strBytes "x=1")).1 rfl,
   (C5_debug_gating (fun _ => false) { mkJournal 0 with Debug := true }
      demoStack (strBytes "x=1")).2 rfl rfl⟩

/-- C6: construction is the only fallible operation: `New` fails exactly when
the dial of the daemon socket fails (propagating that error, returning no
client), and succeeds with a fresh client otherwise.  Every other public
operation is a total function in this embedding, mirroring its error-free Go
signature. -/
theorem C6_construction_only_failure (dial : Except String Nat) :
    (∀ e, dial = Except.error e → New dial = Except.error e) ∧
    (∀ sock, dial = Except.ok sock → New dial = Except.ok (mkJournal sock)) ∧
    ((∃ j, New dial = Except.ok j) ↔ (∃ sock, dial = Except.ok sock)) := by
  cases dial <;> simp [New]

/-- Witness for C6: a failed dial propagates, a successful dial constructs. -/
theorem C6_construction_only_failure_witness :
    New (Except.error "connection refused") = Except.error "connection refused" ∧
    New (Except.ok 5) = Except.ok (mkJournal 5) :=
  ⟨(C6_construction_only_failure (Except.error "connection refused")).1
      "connection refused" rfl,
   (C6_construction_only_failure (Except.ok 5)).2.1 5 rfl⟩

/-- C7: the extra-variables buffer is append-only: `AddVariable` appends one
encoded field, touches nothing else (in particular not the already-enqueued
records), and every record assembled afterwards contains the new field. -/
theorem C7_extra_vars_append_only (j : Journal) (name value : List Nat)
    (isLog : Frame → Bool) (preamble : List Nat) (stack : List Frame)
    (msg : List Nat) :
    (AddVariable j name value).extraVars = j.extraVars ++ buildField name value ∧
    (AddVariable j name value).writes = j.writes ∧
    (AddVariable j name value).Debug = j.Debug ∧
    (AddVariable j name value).codePos = j.codePos ∧
    ∃ rec, (entry isLog (AddVariable j name value) preamble stack msg).writes =
        j.writes ++ [rec] ∧ buildField name value <:+: rec := by
  refine ⟨writeField_append j.extraVars name value, rfl, rfl, rfl, ?_⟩
  refine ⟨preamble ++ (getCodePos isLog (AddVariable j name value) stack).1 ++
    (AddVariable j name value).extraVars ++ buildField (strBytes "MESSAGE") msg,
    ?_, ?_⟩
  · rw [entry_writes]
    simp [AddVariable]
  · refine ⟨preamble ++ (getCodePos isLog (AddVariable j name value) stack).1 ++
      j.extraVars, buildField (strBytes "MESSAGE") msg, ?_⟩
    simp [AddVariable, writeField_append, List.append_assoc]

/-- Witness for C7 at a concrete client and call site (C7's statement has no
proposition hypotheses; this instantiates it anyway at concrete inputs). -/
theorem C7_extra_vars_append_only_witness :
    (AddVariable (mkJournal 0) (strBytes "FOO") (strBytes "bar")).extraVars =
      (mkJournal 0).extraVars ++ buildField (strBytes "FOO") (strBytes "bar") ∧
    (AddVariable (mkJournal 0) (strBytes "FOO") (strBytes "bar")).writes =
      (mkJournal 0).writes ∧
    (AddVariable (mkJournal 0) (strBytes "FOO") (strBytes "bar")).Debug =
      (mkJournal 0).Debug ∧
    (AddVariable (mkJournal 0) (strBytes "FOO") (strBytes "bar")).codePos =
      (mkJournal 0).codePos ∧
    ∃ rec, (entry (fun _ => false)
        (AddVariable (mkJournal 0) (strBytes "FOO") (strBytes "bar"))
        (mkJournal 0).priInfo demoStack (strBytes "x=1")).writes =
        (mkJournal 0).writes ++ [rec] ∧
      buildField (strBytes "FOO") (strBytes "bar") <:+: rec :=
  C7_extra_vars_append_only (mkJournal 0) (strBytes "FOO") (strBytes "bar")
    (fun _ => false) (mkJournal 0).priInfo demoStack (strBytes "x=1")

theorem walkFrames_all_logging (isLog : Frame → Bool) (fs : List Frame)
    (h : ∀ f ∈ fs, isLog f = true) :
    walkFrames isLog fs = fs.getLast?.getD zeroFrame := by
  induction fs with
  | nil => rfl
  | cons f tl ih =>
    cases tl with
    | nil => rfl
    | cons g tl2 =>
      have hf : isLog f = true := h f (List.mem_cons_self f _)
      have htl : ∀ x ∈ g :: tl2, isLog x = true :=
        fun x hx => h x (List.mem_cons_of_mem f hx)
      rw [walkFrames, if_pos hf, ih htl, List.getLast?_cons_cons]

/-- C8: the caller-location walk is total over all stack shapes: it is a
total function, and whenever every examined frame is a logging-library frame
(so no qualifying frame exists — including arbitrarily shallow stacks, the
empty one degenerating to the zero frame), it returns the last frame
reached instead of failing. -/
theorem C8_walk_degrades_gracefully (isLog : Frame → Bool) (fs : List Frame)
    (h : ∀ f ∈ fs, isLog f = true) :
    walkFrames isLog fs = fs.getLast?.getD zeroFrame :=
  walkFrames_all_logging isLog fs h

/-- Witness for C8 on a short, all-logging stack. -/
theorem C8_walk_degrades_gracefully_witness :
    walkFrames (fun _ => true) [demoFrame] =
      ([demoFrame].getLast?).getD zeroFrame :=
  C8_walk_degrades_gracefully (fun _ => true) [demoFrame] (by simp)

/-- C10: the walk examines at most the 4 frames captured starting 3 frames
above the capture point; when all 4 captured frames are logging-library
frames the walk stops at the 4th (last) captured frame, so the reported
caller location is itself a logging-library frame. -/
theorem C10_walk_examines_at_most_four (isLog : Frame → Bool)
    (stack : List Frame) :
    (capturedFrames stack).length ≤ 4 ∧
    (capturedFrames stack = (stack.drop 3).take 4) ∧
    ((capturedFrames stack).length = 4 →
      (∀ f ∈ capturedFrames stack, isLog f = true) →
      walkFrames isLog (capturedFrames stack) =
        (capturedFrames stack).getLast?.getD zeroFrame ∧
      isLog (walkFrames isLog (capturedFrames stack)) = true) := by
  refine ⟨by simp [capturedFrames], rfl, ?_⟩
  intro hlen hall
  have hne : capturedFrames stack ≠ [] := by
    intro hc
    rw [hc] at hlen
    simp at hlen
  have hwalk := walkFrames_all_logging isLog (capturedFrames stack) hall
  refine ⟨hwalk, ?_⟩
  rw [hwalk, List.getLast?_eq_getLast _ hne, Option.getD_some]
  exact hall _ (List.getLast_mem hne)

/-- Witness for C10: a stack whose 4 captured frames are all logging frames;
the walk returns the 4th captured frame, itself a logging frame. -/
theorem C10_walk_examines_at_most_four_witness :
    (capturedFrames (demoStack ++ demoStack)).length ≤ 4 ∧
    (capturedFrames (demoStack ++ demoStack) =
      ((demoStack ++ demoStack).drop 3).take 4) ∧
    (walkFrames (fun _ => true) (capturedFrames (demoStack ++ demoStack)) =
      (capturedFrames (demoStack ++ demoStack)).getLast?.getD zeroFrame ∧
    (fun (_ : Frame) => true) (walkFrames (fun _ => true)
      (capturedFrames (demoStack ++ demoStack))) = true) :=
  ⟨(C10_walk_examines_at_most_four (fun _ => true) (demoStack ++ demoStack)).1,
   (C10_walk_examines_at_most_four (fun _ => true) (demoStack ++ demoStack)).2.1,
   (C10_walk_examines_at_most_four (fun _ => true) (demoStack ++ demoStack)).2.2
      (by decide) (by intro f hf; rfl)⟩

/-- C9: the delivery queue is bounded with fixed capacity 100; a send on a
full queue blocks (is not enabled — nothing is dropped), a send on a
non-full queue appends at the back, after the writer drains one slot from a
full queue a blocked send becomes enabled, and the writer drains records to
the socket in queue FIFO order, dropping none. -/
theorem C9_bounded_queue_backpressure (q : List (List Nat)) (m : List Nat) :
    chanCapacity = 100 ∧
    (q.length = 100 → chanSend q m = none) ∧
    (q.length < 100 → chanSend q m = some (q ++ [m])) ∧
    (q.length = 100 → ∀ x q', chanRecv q = some (x, q') →
      chanSend q' m = some (q' ++ [m])) ∧
    (∀ sent, writerDrain sent q = sent ++ q) := by
  refine ⟨rfl, ?_, ?_, ?_, ?_⟩
  · intro h
    simp [chanSend, chanCapacity, h]
  · intro h
    simp [chanSend, chanCapacity, h]
  · intro h x q' hr
    cases q with
    | nil => simp [chanRecv] at hr
    | cons a tl =>
      simp [chanRecv] at hr
      have : tl.length = 99 := by
        simp at h
        omega
      simp [chanSend, chanCapacity, ← hr.2, this]
  · intro sent
    induction q generalizing sent with
    | nil => simp [writerDrain]
    | cons a tl ih =>
      rw [writerDrain, ih]
      simp

/-- Witness for C9 on a full queue of 100 records and a two-record drain. -/
theorem C9_bounded_queue_backpressure_witness :
    chanSend (List.replicate 100 ([] : List Nat)) [1] = none ∧
    chanSend (List.replicate 99 ([] : List Nat)) [1] =
      some (List.replicate 99 [] ++ [[1]]) ∧
    writerDrain [] [[1], [2]] = [] ++ [[1], [2]] :=
  ⟨(C9_bounded_queue_backpressure (List.replicate 100 []) [1]).2.1 (by simp),
   (C9_bounded_queue_backpressure (List.replicate 99 []) [1]).2.2.1 (by simp),
   (C9_bounded_queue_backpressure [[1], [2]] []).2.2.2.2 []⟩
